import Mathlib

/-
Verification of the react-styles style compiler.

This file embeds, shallowly, the style-manager core of the repository:

* `src/makeStyleManager.mjs` (the evolved draft in that file, lines 364-810):
  the visitor-based walker `parseStyle` / `parseKeyFrames` / `_toCSSProp` /
  `_on`, the manager methods `initStyle` / `_firstInitStyle` /
  `_laterInitStyle` / `_initKeyFrames` / `updateDynamicStyles` /
  `_insertRulesToSheet`, and the `when` helper defined inside `initStyle`.
* `src/unnamed/part_001` lines 191-209: the multi-selector
  `_insertRulesToSheet` of that draft.
* `src/index.mjs`: `_parseCSSPropName` (lines 1172-1184),
  `_renderDynamicStyles` (lines 988-1045) and the time-key handling of
  `_parseKeyFrames` (lines 1195-1200).

Modelling conventions, used throughout:

* JavaScript objects are represented as association lists in enumeration
  order: the order `for (const k in obj)` visits keys.  Concrete examples
  below only use non-integer-like string keys, for which enumeration order
  is insertion order.  `obj[k] = v` is `objSet` / `entSet`: an existing key
  keeps its position, a new key is appended.
* A style definition value is `SDef`: a string, a number, a function
  (represented by an identifier, resolved through an explicit environment
  `FnEnv` at call time, mirroring that the function receives the component
  reference) or a nested object.  `SEntries` is the entry list of a nested
  object (a separate inductive so that the walker is structurally
  recursive).
* Component references are opaque and modelled as `Nat`; an absent /
  `null` / `undefined` reference is `Option.none`.
* Thrown exceptions are `Except.error` carrying the message; DOM writes
  (`styleElement.innerHTML = s`) are returned as `(target, text)` lists in
  execution order instead of being performed.
-/

namespace RS

mutual

/-- A value in a makeStyle() result tree (see MODULE INFO of
`src/makeStyleManager.mjs`): static props are strings or numbers, dynamic
props are functions, children / keyframes / when-entries are objects. -/
inductive SDef where
  | vStr (s : String)
  | vNum (n : Int)
  | vFn (id : Nat)
  | vObj (entries : SEntries)

/-- Entry list of a nested style object, in JS enumeration order. -/
inductive SEntries where
  | enil
  | econs (prop : String) (value : SDef) (rest : SEntries)

end

/-- `typeof value === "object"` (`parser._isChildProp`). -/
def SDef.isObj : SDef → Bool
  | .vObj _ => true
  | _ => false

/-- `typeof value === "function"` (`parser._isDynamicProp`). -/
def SDef.isFn : SDef → Bool
  | .vFn _ => true
  | _ => false

/-- JS string coercion of a value, as it happens in
`htmlStr += prop + ':' + value + ';\n'`.  Only strings and numbers are
coerced in any scenario below; the object and function cases record JS's
default coercions. -/
def jsValToString : SDef → String
  | .vStr s => s
  | .vNum n => toString n
  | .vFn _ => "function"
  | .vObj _ => "[object Object]"

/-- The reserved key prefix: `const whenKey = 'when='`. -/
def whenKey : String := "when="

/-- ASCII code of the first character, `str.charCodeAt(0)`; `none` is JS's
`NaN` for the empty string. -/
def firstCharCode : String → Option Nat
  | s => s.data.head?.map Char.toNat

/-- `code >= 65 && code <= 90` — an ASCII capital letter
(`parser._isComponentName` and `_toCSSProp` use this range). -/
def isUpperCode (code : Nat) : Bool := 65 ≤ code && code ≤ 90

/-- `code >= 65 && code <= 90 || code >= 97 && code <= 122` — the letter
test of the when-branch of `parseStyle`.  A `none` code (NaN) fails both
comparisons. -/
def isLetterCode : Option Nat → Bool
  | none => false
  | some code => isUpperCode code || (97 ≤ code && code ≤ 122)

/-- `parser._isWhenProp`: `prop.slice(0, whenKey.length) === whenKey`. -/
def isWhenProp (prop : String) : Bool :=
  prop.take (String.length whenKey) == whenKey

/-- `parser._isKeyframesProp`: `prop[0] === '@'`. -/
def isKeyframesProp (prop : String) : Bool := prop.take 1 == "@"

/-- `parser._isAbsoluteProp`: `prop[0] === '='`. -/
def isAbsoluteProp (prop : String) : Bool := prop.take 1 == "="

/-- `parser._isComponentName`: first char code in the capital range
(a `none` code, NaN, fails the comparison). -/
def isComponentName (s : String) : Bool :=
  match firstCharCode s with
  | none => false
  | some code => isUpperCode code

/-- The when-branch of `parseStyle`: strip the prefix, prepend `'.'` when
the suffix starts with a letter, append the suffix. -/
def whenSubClassLine (classLine origProp : String) : String :=
  (if isLetterCode (firstCharCode origProp) then classLine ++ "." else classLine)
    ++ origProp

/-- The child-class branch of `parseStyle`: space combinator, `'.'` for
component names only. -/
def childClassLine (classLine prop : String) : String :=
  classLine ++ " " ++ (if isComponentName prop then "." else "") ++ prop

/-- `parser._toCSSProp`, the accumulator loop: each ASCII capital letter
becomes `'-'` plus its lowercase form, every other character is copied. -/
def toCSSPropGo : List Char → String → String
  | [], acc => acc
  | c :: rest, acc =>
      if isUpperCode c.toNat then
        toCSSPropGo rest (acc ++ "-" ++ (Char.toLower c).toString)
      else
        toCSSPropGo rest (acc ++ c.toString)

/-- `parser._toCSSProp name`. -/
def toCSSProp (name : String) : String := toCSSPropGo name.data ""

/-- The spec's wording of the property-name conversion (spec §4.1): "each
uppercase letter is replaced by `-` followed by its lowercase form; no
other characters change".  Stated as a per-character map, to be compared
with the accumulator loop `toCSSProp` of the source. -/
def dashCaseSpec (name : String) : String :=
  go name.data
where
  go : List Char → String
  | [] => ""
  | c :: rest =>
      (if isUpperCode c.toNat then "-" ++ (Char.toLower c).toString else c.toString)
        ++ go rest

/-- The name conversion of `parser._on`: `(condition === "keyframes") ?
prop : this._toCSSProp(prop)` — animation names are never dash-cased. -/
def onPropName (condition prop : String) : String :=
  if condition == "keyframes" then prop else toCSSProp prop

/-- A handler invocation of the walker: which `onProp` callback
(`static` / `dynamic` / `keyframes`) would be called, with which
arguments (property name already put through `parser._on`'s conversion). -/
inductive PropEvent where
  | eStatic (classLine prop : String) (value : SDef)
  | eDynamic (classLine prop : String) (value : SDef)
  | eKeyframes (classLine prop : String) (value : SDef)

mutual

/-- `parser.parseStyle(classLine, makeResult, onProp)`, with the handler
calls reified as a list of `PropEvent`s in invocation order.  A
non-object `makeResult` returns at once. -/
def parseStyle (classLine : String) (makeResult : SDef) : List PropEvent :=
  match makeResult with
  | .vObj entries => parseStyleEntries classLine entries
  | _ => []

/-- The `for (const prop in makeResult)` loop of `parseStyle`. -/
def parseStyleEntries (classLine : String) (entries : SEntries) : List PropEvent :=
  match entries with
  | .enil => []
  | .econs prop value rest =>
      (if isWhenProp prop then
        parseStyle (whenSubClassLine classLine (prop.drop (String.length whenKey))) value
      else if value.isObj then
        (if isKeyframesProp prop then
          [PropEvent.eKeyframes classLine (onPropName "keyframes" prop) value]
        else if isAbsoluteProp prop then
          parseStyle (prop.drop 1) value
        else
          parseStyle (childClassLine classLine prop) value)
      else if value.isFn then
        [PropEvent.eDynamic classLine (onPropName "dynamic" prop) value]
      else
        [PropEvent.eStatic classLine (onPropName "static" prop) value])
      ++ parseStyleEntries classLine rest

end

/-- JS whitespace accepted by `parseInt` before the number. -/
def jsIsSpace (c : Char) : Bool :=
  c == ' ' || c == '\t' || c == '\n' || c == '\r' || c.toNat == 11 || c.toNat == 12

/-- Decimal digit value. -/
def decDigit (c : Char) : Option Nat :=
  if 48 ≤ c.toNat && c.toNat ≤ 57 then some (c.toNat - 48) else none

/-- Hex digit value. -/
def hexDigit (c : Char) : Option Nat :=
  if 48 ≤ c.toNat && c.toNat ≤ 57 then some (c.toNat - 48)
  else if 97 ≤ c.toNat && c.toNat ≤ 102 then some (c.toNat - 87)
  else if 65 ≤ c.toNat && c.toNat ≤ 70 then some (c.toNat - 55)
  else none

/-- Accumulate the longest digit prefix; `none` when there is no digit
(that is `parseInt`'s NaN). -/
def takeDigits (digit : Char → Option Nat) (base : Nat) :
    List Char → Option Nat → Option Nat
  | [], acc => acc
  | c :: rest, acc =>
      match digit c with
      | some d => takeDigits digit base rest (some ((acc.getD 0) * base + d))
      | none => acc

/-- JS `parseInt(s)` with the radix unspecified: skip whitespace, optional
sign, `0x`/`0X` switches to base 16, then the longest digit prefix;
`none` is NaN.  (Trailing non-digit characters are ignored — this is why
`parseInt("60%")` is `60`.) -/
def jsParseInt (s : String) : Option Int :=
  let cs := s.data.dropWhile jsIsSpace
  let (sign, cs2) : Int × List Char :=
    match cs with
    | '-' :: rest => (-1, rest)
    | '+' :: rest => (1, rest)
    | rest => (1, rest)
  let mag : Option Nat :=
    match cs2 with
    | '0' :: 'x' :: rest => takeDigits hexDigit 16 rest none
    | '0' :: 'X' :: rest => takeDigits hexDigit 16 rest none
    | rest => takeDigits decDigit 10 rest none
  mag.map (fun m => sign * (m : Int))

/-- The time-key handling of `parser.parseKeyFrames`:
`const asInt = parseInt(keyTime); if (asInt || asInt === 0) keyTime += '%'`
— `'%'` is appended exactly when `parseInt` does not give NaN. -/
def kfTimeKey (keyProp : String) : String :=
  match jsParseInt keyProp with
  | some _ => keyProp ++ "%"
  | none => keyProp

/-- The time-key handling of `ReactStyles._parseKeyFrames` in
`src/index.mjs` (lines 1197-1200): `frameTime = frameTimeInt + '%'` — the
suffixed key is rebuilt from the parsed integer instead of appended to. -/
def idxFrameTime (frameTime : String) : String :=
  match jsParseInt frameTime with
  | some n => toString n ++ "%"
  | none => frameTime

/-- The inner `for (const prop in timeProps)` loop of `parseKeyFrames`:
classify each property of one time bucket as static or dynamic, the
property name put through `parser._on`'s conversion, the time key used as
the `classLine` argument. -/
def parseKFProps (keyTime : String) : SEntries → List PropEvent
  | .enil => []
  | .econs prop value rest =>
      (if value.isFn then [PropEvent.eDynamic keyTime (onPropName "dynamic" prop) value]
       else [PropEvent.eStatic keyTime (onPropName "static" prop) value])
      ++ parseKFProps keyTime rest

/-- The outer loop of `parseKeyFrames` over the timeline's time keys.
(A non-object time bucket yields no property events; every bucket in the
repository and in the claims is an object.) -/
def parseKFEntries : SEntries → List PropEvent
  | .enil => []
  | .econs keyProp timeProps rest =>
      (match timeProps with
       | .vObj props => parseKFProps (kfTimeKey keyProp) props
       | _ => [])
      ++ parseKFEntries rest

/-- `parser.parseKeyFrames(keyTimes, onProp)` with handler calls reified.
(Only ever invoked on object-typed values: the keyframes branch of
`parseStyle` requires `typeof value === "object"`.) -/
def parseKeyFrames (keyTimes : SDef) : List PropEvent :=
  match keyTimes with
  | .vObj entries => parseKFEntries entries
  | _ => []

/-! ### JS object machinery shared by the manager

The accumulators of `_firstInitStyle` / `_laterInitStyle` /
`_initKeyFrames` are plain JS objects used as maps
(`rules[classLine][prop] = value`).  They are modelled as association
lists in enumeration order; assignment keeps an existing key in place and
appends a new one. -/

/-- `obj[k]`, `none` for an absent key. -/
def objGet {α : Type} : List (String × α) → String → Option α
  | [], _ => none
  | (k2, v) :: rest, k => if k2 = k then some v else objGet rest k

/-- `obj[k] = v`. -/
def objSet {α : Type} : List (String × α) → String → α → List (String × α)
  | [], k, v => [(k, v)]
  | (k2, v2) :: rest, k, v =>
      if k2 = k then (k2, v) :: rest else (k2, v2) :: objSet rest k v

/-- `obj[k]` on a nested-object entry list. -/
def entGet : SEntries → String → Option SDef
  | .enil, _ => none
  | .econs k2 v rest, k => if k2 = k then some v else entGet rest k

/-- `obj[k] = v` on a nested-object entry list. -/
def entSet : SEntries → String → SDef → SEntries
  | .enil, k, v => .econs k v .enil
  | .econs k2 v2 rest, k, v =>
      if k2 = k then .econs k2 v rest else .econs k2 v2 (entSet rest k v)

/-- One rule set: `props[prop] = value` for a single selector, as
accumulated by the `onProp` handlers (property names already
dash-cased). -/
abbrev RuleProps := List (String × SDef)

/-- The accumulators `staticRules` / `this._dynamicRules`:
`rules[classLine][prop] = value`. -/
abbrev Rules := List (String × RuleProps)

/-- `rules[classLine] = rules[classLine] || {}; ruleProps[prop] = value` —
the body of the `static` and `dynamic` handlers of `_firstInitStyle` and
`_laterInitStyle`. -/
def rulesAdd (rules : Rules) (classLine prop : String) (value : SDef) : Rules :=
  objSet rules classLine (objSet ((objGet rules classLine).getD []) prop value)

/-! ### The `when` helper

`initStyle` defines `const when = (param) => + whenKey + param`.  The body
parses as `(+whenKey) + param`: the unary `+` coerces the string
`'when='` to a number — `NaN` — and `NaN + param` is the string
concatenation `"NaN" + param`. -/

/-- JS `Number(s)` restricted to what the `when` helper needs: a string
that is not a numeral (such as `'when='`) coerces to NaN (`none`). -/
def jsStringToNumber (s : String) : Option Int :=
  let cs := s.data.dropWhile jsIsSpace
  let (sign, cs2) : Int × List Char :=
    match cs with
    | '-' :: rest => (-1, rest)
    | '+' :: rest => (1, rest)
    | rest => (1, rest)
  if cs2 = [] then some 0
  else if cs2.all (fun c => (decDigit c).isSome) then
    some (sign * (cs2.foldl (fun acc c => acc * 10 + (decDigit c).getD 0) 0 : Int))
  else none

/-- JS rendering of a number in string concatenation; NaN prints "NaN". -/
def jsNumToString : Option Int → String
  | none => "NaN"
  | some n => toString n

/-- The `when` helper exactly as `initStyle` defines it:
`(param) => + whenKey + param`. -/
def whenHelper (param : String) : String :=
  jsNumToString (jsStringToNumber whenKey) ++ param

/-! ### `_insertRulesToSheet` (makeStyleManager.mjs lines 565-604)

Builds the CSS text for one rule line; a dynamic value is called with the
component instance, and a missing instance throws.  The function
environment `FnEnv` resolves a function identifier at a concrete
reference. -/

/-- Resolution of dynamic property values: `env id ref` is the value
`valueFn(componentInstance)` returns on this call. -/
abbrev FnEnv := Nat → Nat → SDef

/-- The thrown message of `_insertRulesToSheet`. -/
def dynErrMsg : String :=
  "(Internal React Styles Error) Dynamic property found with undefined component instance"

/-- `if (typeof value === "function") { if (!componentInstance) throw ...;
value = value(componentInstance) }`. -/
def resolveVal (value : SDef) (ref : Option Nat) (env : FnEnv) : Except String SDef :=
  match value with
  | .vFn id =>
      match ref with
      | none => .error dynErrMsg
      | some r => .ok (env id r)
  | v => .ok v

/-- The inner keyframes loop of `_insertRulesToSheet`
(`for (const prop in keyTimeRules)`). -/
def renderBucketProps (ref : Option Nat) (env : FnEnv) :
    SEntries → String → Except String String
  | .enil, acc => .ok acc
  | .econs prop value rest, acc => do
      let v ← resolveVal value ref env
      renderBucketProps ref env rest (acc ++ prop ++ ":" ++ jsValToString v ++ ";\n")

/-- The outer loop of `_insertRulesToSheet` (`for (const prop in ruleSet)`):
an object value (a keyframes time bucket) opens a nested block, any other
value is emitted as `prop:value;`. -/
def renderRuleProps (ref : Option Nat) (env : FnEnv) :
    RuleProps → String → Except String String
  | [], acc => .ok acc
  | (prop, value) :: rest, acc => do
      let v ← resolveVal value ref env
      match v with
      | .vObj keyTimeRules => do
          let inner ← renderBucketProps ref env keyTimeRules (acc ++ prop ++ "\x7b\n")
          renderRuleProps ref env rest (inner ++ "\x7d\n")
      | v2 =>
          renderRuleProps ref env rest (acc ++ prop ++ ":" ++ jsValToString v2 ++ ";\n")

/-- `_insertRulesToSheet(ruleLine, ruleSet, styleElement, componentInstance)`;
the returned string is what is assigned to `styleElement.innerHTML`. -/
def insertRulesToSheet (ruleLine : String) (ruleSet : RuleProps)
    (ref : Option Nat) (env : FnEnv) : Except String String := do
  let body ← renderRuleProps ref env ruleSet (ruleLine ++ "\x7b\n")
  .ok (body ++ "\x7d\n")

/-! ### `_insertRulesToSheet` of `src/unnamed/part_001` (lines 191-209)

That draft renders a whole `Rules` map into ONE string — selectors are
concatenated first-seen-first-emitted — and calls dynamic values with the
(possibly null) `componentInstance` without any check. -/

/-- `if (typeof value === "function") value = value(componentInstance)` of
part_001's `_insertRulesToSheet` — no null check there, the possibly-null
instance is passed to the producer. -/
def resolveValN (ref : Option Nat) (envN : Nat → Option Nat → SDef) :
    SDef → SDef
  | .vFn id => envN id ref
  | v => v

/-- The inner property loop of part_001's `_insertRulesToSheet`. -/
def multiProps (ref : Option Nat) (envN : Nat → Option Nat → SDef) :
    RuleProps → String → String
  | [], acc => acc
  | (prop, value) :: rest, acc =>
      multiProps ref envN rest
        (acc ++ prop ++ ":" ++ jsValToString (resolveValN ref envN value) ++ ";\n")

/-- The outer `for (const ruleLine in ruleSet)` loop of part_001's
`_insertRulesToSheet`, accumulating `htmlStr`. -/
def insertMultiLoop (ref : Option Nat) (envN : Nat → Option Nat → SDef) :
    Rules → String → String
  | [], acc => acc
  | (ruleLine, props) :: rest, acc =>
      insertMultiLoop ref envN rest
        (multiProps ref envN props (acc ++ ruleLine ++ "\x7b\n") ++ "\x7d\n")

/-- part_001's `_insertRulesToSheet(componentInstance, ruleSet, styleElement)`:
the single string assigned to `styleElement.innerHTML`. -/
def insertRulesToSheetMulti (ref : Option Nat) (envN : Nat → Option Nat → SDef)
    (ruleSet : Rules) : String :=
  insertMultiLoop ref envN ruleSet ""

/-! ### `_initKeyFrames` (makeStyleManager.mjs lines 524-560)

All-or-nothing per animation name: walk the timeline with
`parseKeyFrames`; both handlers accumulate the whole bucket structure into
`processedKeyTimeRules`, the `dynamic` handler additionally raises
`anyDynamic`.  (The `ruleProps[isDynamic] = true` marker uses a `Symbol()`
key, which `for...in` never enumerates; it is invisible to every later
read of these objects, so it is not modelled.) -/

/-- `processedKeyTimeRules[keyTime] = processedKeyTimeRules[keyTime] || {};
ruleProps[prop] = value` — both handlers of `_initKeyFrames`. -/
def kfAdd (pr : RuleProps) (keyTime prop : String) (value : SDef) : RuleProps :=
  let bucket : SEntries :=
    match objGet pr keyTime with
    | some (.vObj ps) => ps
    | _ => .enil
  objSet pr keyTime (.vObj (entSet bucket prop value))

/-- Folding the walker's handler calls through `_initKeyFrames`'s two
handlers: the accumulated `processedKeyTimeRules` and the `anyDynamic`
flag. -/
def kfAccumulate : List PropEvent → RuleProps × Bool → RuleProps × Bool
  | [], acc => acc
  | .eStatic keyTime prop value :: rest, (pr, anyDyn) =>
      kfAccumulate rest (kfAdd pr keyTime prop value, anyDyn)
  | .eDynamic keyTime prop value :: rest, (pr, _) =>
      kfAccumulate rest (kfAdd pr keyTime prop value, true)
  | .eKeyframes _ _ _ :: rest, acc => kfAccumulate rest acc

/-- `(processedKeyTimeRules, anyDynamic)` after
`parser.parseKeyFrames(keyFramesTimes, onProp)` runs inside
`_initKeyFrames`. -/
def processKeyTimes (keyFramesTimes : SDef) : RuleProps × Bool :=
  kfAccumulate (parseKeyFrames keyFramesTimes) ([], false)

/-- The observable outcome of one `_initKeyFrames` call: the updated
`this._dynamicRules`, the static writes performed (rule line, text), and
the rule lines for which a dynamic style element was created. -/
structure KFOut where
  dyn : Rules
  writes : List (String × String)
  sheets : List String

/-- `_initKeyFrames(keyFramesRule, keyFramesTimes, isFirstInit)`. -/
def initKeyFrames (keyFramesRule : String) (keyFramesTimes : SDef)
    (isFirstInit : Bool) (dynRules : Rules) (env : FnEnv) : Except String KFOut :=
  let (pr, anyDyn) := processKeyTimes keyFramesTimes
  let dyn2 := if anyDyn then objSet dynRules keyFramesRule pr else dynRules
  if isFirstInit then
    if anyDyn then
      .ok ⟨dyn2, [], [keyFramesRule]⟩
    else do
      let text ← insertRulesToSheet keyFramesRule pr none env
      .ok ⟨dyn2, [(keyFramesRule, text)], []⟩
  else
    .ok ⟨dyn2, [], []⟩

/-! ### `_firstInitStyle` (makeStyleManager.mjs lines 455-500)

Walk the full definition through three handlers; keyframes are processed
eagerly by `_initKeyFrames` during the walk (so the static keyframes
writes come first), then the accumulated static rule sets are rendered and
written one selector at a time, then one dynamic style element is created
per dynamic rule line, and finally the per-base-rule state is recorded:
`"dynamic"` when any dynamic rule line exists, else `"static"`. -/

/-- Accumulator state while the walk of `_firstInitStyle` runs. -/
structure InitAcc where
  staticRules : Rules
  dynRules : Rules
  kfWrites : List (String × String)
  kfDynSheets : List String

/-- The three `onProp` handlers of `_firstInitStyle` folded over the
walker's calls (keyframes run `_initKeyFrames(prop, value, true)`
immediately). -/
def processInitEvents (env : FnEnv) :
    List PropEvent → InitAcc → Except String InitAcc
  | [], acc => .ok acc
  | .eStatic cl p v :: rest, acc =>
      processInitEvents env rest
        { acc with staticRules := rulesAdd acc.staticRules cl p v }
  | .eDynamic cl p v :: rest, acc =>
      processInitEvents env rest
        { acc with dynRules := rulesAdd acc.dynRules cl p v }
  | .eKeyframes _cl p v :: rest, acc => do
      let kf ← initKeyFrames p v true acc.dynRules env
      processInitEvents env rest
        { acc with dynRules := kf.dyn,
                   kfWrites := acc.kfWrites ++ kf.writes,
                   kfDynSheets := acc.kfDynSheets ++ kf.sheets }

/-- The `for (const cssRule in staticRules)` loop: create a static sheet
per selector and write the rendered text to it (the component reference
argument is omitted, hence `none`). -/
def renderStaticRules (env : FnEnv) :
    Rules → Except String (List (String × String))
  | [] => .ok []
  | (cssRule, ruleDef) :: rest => do
      let text ← insertRulesToSheet cssRule ruleDef none env
      let more ← renderStaticRules env rest
      .ok ((cssRule, text) :: more)

/-- Result of `_firstInitStyle`: the recorded per-base-rule state
(`StyleManager._initializedComponents[baseRule]`), the manager's
`this._dynamicRules`, all static writes (in execution order: the eager
keyframes writes, then the static-rules loop) and every dynamic style
element creation (the eager keyframes ones, then the
`for (const cssRule in this._dynamicRules)` loop — a dynamic keyframes
rule is created twice, as in the source). -/
structure FirstRes where
  state : Option String
  dynRules : Rules
  staticWrites : List (String × String)
  dynSheets : List String

/-- `_firstInitStyle(makeResult)` for a manager whose `_baseRule` is
`baseRule` (its `initStyle` already ran `makeResult = this._makeStyle(when)`;
the walk starts at `initRule = this._baseRule`). -/
def firstInitStyle (baseRule : String) (makeResult : SDef) (env : FnEnv) :
    Except String FirstRes := do
  let acc ← processInitEvents env (parseStyle baseRule makeResult)
    ⟨[], [], [], []⟩
  let staticWs ← renderStaticRules env acc.staticRules
  let anyDynamic := !acc.dynRules.isEmpty
  .ok { state := some (if anyDynamic then "dynamic" else "static"),
        dynRules := acc.dynRules,
        staticWrites := acc.kfWrites ++ staticWs,
        dynSheets := acc.kfDynSheets ++ acc.dynRules.map (fun p => p.1) }

/-! ### `_laterInitStyle` (makeStyleManager.mjs lines 501-521)

`if (!this._styleInitializedBefore() !== "dynamic") return` — the guard
strictly compares a boolean (`!x`) with the string `"dynamic"`. -/

/-- A JS value as it appears in the guard: a boolean or a string. -/
inductive JSVal where
  | jbool (b : Bool)
  | jstr (s : String)

/-- JS strict equality `===` on these values: values of different types
are never strictly equal. -/
def jsStrictEqVal : JSVal → JSVal → Bool
  | .jbool a, .jbool b => a == b
  | .jstr a, .jstr b => a == b
  | _, _ => false

/-- JS truthiness of `StyleManager._initializedComponents[this._baseRule]`
(`undefined` or a string). -/
def jsTruthyStr : Option String → Bool
  | none => false
  | some s => s != ""

/-- The early-return guard of `_laterInitStyle`:
`!this._styleInitializedBefore() !== "dynamic"`. -/
def laterInitGuard (st : Option String) : Bool :=
  !jsStrictEqVal (.jbool (!jsTruthyStr st)) (.jstr "dynamic")

/-- The accumulation `_laterInitStyle` performs after its guard: only the
`dynamic` and `keyframes` handlers are wired (a `static` call falls
through `_on`'s `typeof callback === "function"` check), and the
keyframes handler runs `_initKeyFrames(prop, value, false)`, which can
only add the processed block to `this._dynamicRules`. -/
def processLaterEvents : List PropEvent → Rules → Rules
  | [], dyn => dyn
  | .eStatic _ _ _ :: rest, dyn => processLaterEvents rest dyn
  | .eDynamic cl p v :: rest, dyn => processLaterEvents rest (rulesAdd dyn cl p v)
  | .eKeyframes _ p v :: rest, dyn =>
      let (pr, anyDyn) := processKeyTimes v
      processLaterEvents rest (if anyDyn then objSet dyn p pr else dyn)

/-- `_laterInitStyle(makeResult)`: the resulting `this._dynamicRules`
field (`none` = still `null`).  When the guard returns early the field is
left untouched; otherwise it is re-assigned `{}` and refilled from a
dynamic-only walk. -/
def laterInitStyle (st : Option String) (baseRule : String) (makeResult : SDef)
    (dynBefore : Option Rules) : Option Rules :=
  if laterInitGuard st then dynBefore
  else some (processLaterEvents (parseStyle baseRule makeResult) [])

/-! ### `initStyle` (makeStyleManager.mjs lines 419-434)

`if (!this._styleInitializedBefore()) this._firstInitStyle(makeResult)
else this._laterInitStyle(makeResult)`. -/

/-- The observable outcome of one `initStyle()` call. -/
structure StepRes where
  state : Option String
  dynRules : Option Rules
  staticWrites : List (String × String)
  dynSheets : List String

/-- One `initStyle()` call of a manager with base rule `baseRule` whose
`makeStyle` returned `makeResult`: `st` is the shared registry state for
this base rule before the call, `dynBefore` the calling manager's own
`this._dynamicRules` (`none` right after construction). -/
def initStyleStep (st : Option String) (dynBefore : Option Rules)
    (baseRule : String) (makeResult : SDef) (env : FnEnv) :
    Except String StepRes :=
  if jsTruthyStr st then
    .ok { state := st,
          dynRules := laterInitStyle st baseRule makeResult dynBefore,
          staticWrites := [], dynSheets := [] }
  else do
    let r ← firstInitStyle baseRule makeResult env
    .ok { state := r.state, dynRules := some r.dynRules,
          staticWrites := r.staticWrites, dynSheets := r.dynSheets }

/-! ### `updateDynamicStyles` (makeStyleManager.mjs lines 437-444) -/

/-- A `StyleManager._knownStyles` record: the remembered static and
dynamic style elements (an element is an opaque handle). -/
structure MemEntry where
  staticSheet : Option Nat
  dynamicSheet : Option Nat

/-- The `for (const ruleLine in this._dynamicRules)` loop: look the
memorized sheets up (reading `.dynamic` of an absent record throws),
render with `_insertRulesToSheet`, and assign the element's `innerHTML`
(assigning through an `undefined` element throws). -/
def updateLoop (mem : String → Option MemEntry) (ref : Option Nat) (env : FnEnv) :
    Rules → Except String (List (String × String))
  | [] => .ok []
  | (ruleLine, ruleSet) :: rest =>
      match mem ruleLine with
      | none => .error "TypeError: cannot read property of undefined"
      | some m => do
          let text ← insertRulesToSheet ruleLine ruleSet ref env
          match m.dynamicSheet with
          | none => .error "TypeError: cannot set property of undefined"
          | some _ => do
              let more ← updateLoop mem ref env rest
              .ok ((ruleLine, text) :: more)

/-- `updateDynamicStyles(componentInstance)`: `for...in` over a `null`
`this._dynamicRules` iterates nothing.  The result is the list of
(rule line, text) writes to dynamic style elements, in order. -/
def updateDynamicStyles (dynRules : Option Rules) (mem : String → Option MemEntry)
    (ref : Option Nat) (env : FnEnv) : Except String (List (String × String)) :=
  match dynRules with
  | none => .ok []
  | some rules => updateLoop mem ref env rules

/-! ### `ReactStyles._parseCSSPropName` (src/index.mjs lines 1172-1184)

The older draft's name conversion: `char === char.toUpperCase()` (true
also for characters with no case, such as digits). -/

/-- JS `char.toUpperCase()` for the ASCII range the repository's property
names use. -/
def jsCharToUpper (c : Char) : Char :=
  if 97 ≤ c.toNat && c.toNat ≤ 122 then Char.toUpper c else c

/-- The accumulator loop of `_parseCSSPropName`. -/
def parseCSSPropNameGo : List Char → String → String
  | [], acc => acc
  | c :: rest, acc =>
      if jsCharToUpper c == c then
        parseCSSPropNameGo rest (acc ++ "-" ++ (Char.toLower c).toString)
      else
        parseCSSPropNameGo rest (acc ++ c.toString)

/-- `ReactStyles._parseCSSPropName(name)`. -/
def parseCSSPropName (name : String) : String :=
  parseCSSPropNameGo name.data ""

/-! ### `ReactStyles._renderDynamicStyles` (src/index.mjs lines 988-1045)

The update path of the older draft: merge the dynamic style stack into
per-class-line strings, then write each merged string to its element ONLY
when it differs from the last string written for that class line
(`this._lastStyleValues`).  In the vendored source the `\n` escapes of
the template literals appear with the backslash stripped (`;n`, `}n`,
`{n`); they are modelled as the newlines the literals denote.  The
`try/catch` around `getValue` only logs; producers are modelled as total.
A `none` result models the `ReactStyles._themeSkipped` sentinel, which
`continue`s. -/

/-- An entry of the dynamic style stack: `{ classLine, prop, getValue }`,
the value producer as an identifier. -/
structure DynItem where
  classLine : String
  prop : String
  fnId : Nat

/-- Value producers for the dynamic style stack: `env id ref` is what
`getValue(componentRef)` returns on this call (already a string, as it is
interpolated into a template literal); `none` is the theme-skip
sentinel. -/
abbrev GetEnv := Nat → Nat → Option String

/-- The merging loop of `_renderDynamicStyles` over
`styleStack.concat(this._dynamicThemeStyles || [])`. -/
def mergeStackLoop (env : GetEnv) (ref : Nat) :
    List DynItem → List (String × String) → List (String × String)
  | [], acc => acc
  | it :: rest, acc =>
      match env it.fnId ref with
      | none => mergeStackLoop env ref rest acc
      | some newVal =>
          let cur := (objGet acc it.classLine).getD ""
          let piece :=
            if it.classLine.take 7 == "@keyfra" then
              parseCSSPropName it.prop ++ " \x7b" ++ newVal ++ "\x7d\n"
            else
              parseCSSPropName it.prop ++ ": " ++ newVal ++ ";\n"
          mergeStackLoop env ref rest (objSet acc it.classLine (cur ++ piece))

/-- The write loop of `_renderDynamicStyles`: for each merged class line,
write `` `${classLine} {${props}}` `` to its element — but only if
`props !== this._lastStyleValues[classLine]` — and record the written
string.  Returns (writes performed, updated `_lastStyleValues`). -/
def applyMergedLoop :
    List (String × String) → List (String × String) →
    List (String × String) × List (String × String)
  | [], last => ([], last)
  | (cl, props) :: rest, last =>
      if objGet last cl = some props then
        applyMergedLoop rest last
      else
        let out := applyMergedLoop rest (objSet last cl props)
        ((cl, cl ++ " \x7b" ++ props ++ "\x7d") :: out.1, out.2)

/-- `_renderDynamicStyles(styleStack, componentRef)` with theme styles
`themes` appended, against the current `_lastStyleValues`. -/
def renderDynamicStyles (styleStack themes : List DynItem) (env : GetEnv)
    (ref : Nat) (last : List (String × String)) :
    List (String × String) × List (String × String) :=
  applyMergedLoop (mergeStackLoop env ref (styleStack ++ themes) []) last

/-! ## Concrete scenarios used by the claims -/

/-- The end-to-end scenario of spec §8:
`{ color: "white", backgroundColor: "red", size: () => counter++ }`. -/
def c9def : SDef :=
  .vObj (.econs "color" (.vStr "white")
    (.econs "backgroundColor" (.vStr "red")
    (.econs "size" (.vFn 0) .enil)))

/-- A producer environment for the scenario: the `size` producer returns
`0` (what `counter++` yields on its first call). -/
def c9env : FnEnv := fun _ _ => .vNum 0

/-- The `when()` scenario of spec §8 with the keys the source's `when`
helper actually produces: `{ [when("Square")]: { [when(":active")]:
{ color: "red" } } }`. -/
def whenDefViaHelper : SDef :=
  .vObj (.econs (whenHelper "Square")
    (.vObj (.econs (whenHelper ":active")
      (.vObj (.econs "color" (.vStr "red") .enil)) .enil)) .enil)

/-- The same definition with the documented reserved-prefix keys (what
`ReactStyles._makeStyleWhen` in `src/index.mjs` line 1056-1058 produces:
`"when=" + subclass`). -/
def whenDefIntended : SDef :=
  .vObj (.econs "when=Square"
    (.vObj (.econs "when=:active"
      (.vObj (.econs "color" (.vStr "red") .enil)) .enil)) .enil)

/-- The keyframes timeline of spec §8:
`{ from: { opacity: 0 }, to: { opacity: (ref) => ref.state.o } }`. -/
def kfTimeline : SDef :=
  .vObj (.econs "from" (.vObj (.econs "opacity" (.vNum 0) .enil))
    (.econs "to" (.vObj (.econs "opacity" (.vFn 5) .enil)) .enil))

/-- The accumulated `processedKeyTimeRules` for `kfTimeline`: both time
buckets, including the literal `0`. -/
def kfProcessed : RuleProps :=
  [("from", .vObj (.econs "opacity" (.vNum 0) .enil)),
   ("to", .vObj (.econs "opacity" (.vFn 5) .enil))]

/-- A definition whose only entry is the `@keyframes X` block above. -/
def kfDef : SDef := .vObj (.econs "@keyframes X" kfTimeline .enil)

/-- A fully static keyframes timeline: `{ from: { opacity: 0 },
to: { opacity: 1 } }`. -/
def kfTimelineStatic : SDef :=
  .vObj (.econs "from" (.vObj (.econs "opacity" (.vNum 0) .enil))
    (.econs "to" (.vObj (.econs "opacity" (.vNum 1) .enil)) .enil))

/-! ## Supporting lemmas -/

/-- The guard of `_laterInitStyle` strictly compares a boolean with the
string `"dynamic"`, so it holds for every registry state. -/
theorem laterInitGuard_always_true (st : Option String) : laterInitGuard st = true := by
  cases st <;> rfl

/-- The accumulator loop of `_toCSSProp` against the per-character spec
map. -/
theorem toCSSPropGo_append (cs : List Char) :
    ∀ acc : String, toCSSPropGo cs acc = acc ++ dashCaseSpec.go cs := by
  induction cs with
  | nil => intro acc; simp [toCSSPropGo, dashCaseSpec.go]
  | cons c rest ih =>
      intro acc
      by_cases h : isUpperCode c.toNat = true
      · simp [toCSSPropGo, dashCaseSpec.go, h, ih, String.append_assoc]
      · simp [toCSSPropGo, dashCaseSpec.go, h, ih, String.append_assoc]

/-- `_toCSSProp` computes exactly the spec's conversion. -/
theorem toCSSProp_eq_dashCaseSpec (name : String) :
    toCSSProp name = dashCaseSpec name := by
  have h := toCSSPropGo_append name.data ""
  simpa [toCSSProp, dashCaseSpec] using h

/-- Does a nested-object entry list contain a function value? -/
def entriesHaveFn : SEntries → Bool
  | .enil => false
  | .econs _ v rest => v.isFn || entriesHaveFn rest

/-- Does a rule-set value need a component reference when rendered: a
function value, or a keyframes time bucket holding one? -/
def valHasFn : SDef → Bool
  | .vFn _ => true
  | .vObj es => entriesHaveFn es
  | _ => false

/-- Does a rule set contain a dynamic entry, at top level or inside a
time bucket (the two places `_insertRulesToSheet` calls a value)? -/
def rulePropsHaveFn : RuleProps → Bool
  | [] => false
  | (_, v) :: rest => valHasFn v || rulePropsHaveFn rest

/-- `Except` bind on a success, as the do-blocks of the renderer use
it. -/
theorem ebindOk {α β : Type} (a : α) (k : α → Except String β) :
    (Except.ok a >>= k) = k a := rfl

/-- `Except` bind propagates a thrown error. -/
theorem ebindErr {α β : Type} (e : String) (k : α → Except String β) :
    ((Except.error e : Except String α) >>= k) = .error e := rfl

/-- A function-free time bucket renders successfully without a
reference. -/
theorem renderBucketProps_ok (env : FnEnv) :
    ∀ es : SEntries, entriesHaveFn es = false →
      ∀ acc : String, ∃ t, renderBucketProps none env es acc = .ok t
  | .enil, _, acc => ⟨acc, rfl⟩
  | .econs p v rest, h, acc => by
      simp [entriesHaveFn] at h
      have hv : resolveVal v none env = .ok v := by
        cases v <;> simp_all [resolveVal, SDef.isFn]
      simpa [renderBucketProps, hv, ebindOk] using
        renderBucketProps_ok env rest h.2 _

/-- A time bucket holding a function value throws the missing-instance
error when rendered without a reference. -/
theorem renderBucketProps_err (env : FnEnv) :
    ∀ es : SEntries, entriesHaveFn es = true →
      ∀ acc : String, renderBucketProps none env es acc = .error dynErrMsg
  | .econs p v rest, h, acc => by
      cases hv : v.isFn with
      | true =>
          cases v <;> simp [SDef.isFn] at hv
          rfl
      | false =>
          have hrest : entriesHaveFn rest = true := by
            simpa [entriesHaveFn, hv] using h
          have hr : resolveVal v none env = .ok v := by
            cases v <;> simp_all [resolveVal, SDef.isFn]
          simpa [renderBucketProps, hr, ebindOk] using
            renderBucketProps_err env rest hrest _

/-- A function-free rule set renders successfully without a reference. -/
theorem renderRuleProps_ok (env : FnEnv) :
    ∀ rs : RuleProps, rulePropsHaveFn rs = false →
      ∀ acc : String, ∃ t, renderRuleProps none env rs acc = .ok t
  | [], _, acc => ⟨acc, rfl⟩
  | (p, v) :: rest, h, acc => by
      simp [rulePropsHaveFn] at h
      cases v with
      | vFn id => simp [valHasFn] at h
      | vObj es =>
          obtain ⟨t, ht⟩ :=
            renderBucketProps_ok env es (by simpa [valHasFn] using h.1)
              (acc ++ p ++ "\x7b\n")
          simpa [renderRuleProps, resolveVal, ebindOk, ht] using
            renderRuleProps_ok env rest h.2 _
      | vStr s =>
          simpa [renderRuleProps, resolveVal, ebindOk] using
            renderRuleProps_ok env rest h.2 _
      | vNum n =>
          simpa [renderRuleProps, resolveVal, ebindOk] using
            renderRuleProps_ok env rest h.2 _

/-- A rule set holding a function value (at top level or inside a time
bucket) throws the missing-instance error when rendered without a
reference. -/
theorem renderRuleProps_err (env : FnEnv) :
    ∀ rs : RuleProps, rulePropsHaveFn rs = true →
      ∀ acc : String, renderRuleProps none env rs acc = .error dynErrMsg
  | (p, v) :: rest, h, acc => by
      cases v with
      | vFn id => rfl
      | vObj es =>
          cases hb : entriesHaveFn es with
          | true =>
              have hbkt := renderBucketProps_err env es hb (acc ++ p ++ "\x7b\n")
              simp [renderRuleProps, resolveVal, ebindOk, hbkt, ebindErr]
          | false =>
              have hrest : rulePropsHaveFn rest = true := by
                simpa [rulePropsHaveFn, valHasFn, hb] using h
              obtain ⟨t, ht⟩ :=
                renderBucketProps_ok env es hb (acc ++ p ++ "\x7b\n")
              simpa [renderRuleProps, resolveVal, ebindOk, ht] using
                renderRuleProps_err env rest hrest _
      | vStr s =>
          have hrest : rulePropsHaveFn rest = true := by
            simpa [rulePropsHaveFn, valHasFn] using h
          simpa [renderRuleProps, resolveVal, ebindOk] using
            renderRuleProps_err env rest hrest _
      | vNum n =>
          have hrest : rulePropsHaveFn rest = true := by
            simpa [rulePropsHaveFn, valHasFn] using h
          simpa [renderRuleProps, resolveVal, ebindOk] using
            renderRuleProps_err env rest hrest _

/-- Is a walker event a `dynamic` handler call? -/
def evIsDyn : PropEvent → Bool
  | .eDynamic _ _ _ => true
  | _ => false

/-- Does an event list contain a `dynamic` handler call? -/
def evAnyDyn : List PropEvent → Bool
  | [] => false
  | e :: rest => evIsDyn e || evAnyDyn rest

/-- The claim's trigger for keyframes: some time bucket of the timeline
has a function-valued property. -/
def timelineHasFn : SEntries → Bool
  | .enil => false
  | .econs _ tp rest =>
      (match tp with
       | .vObj ps => entriesHaveFn ps
       | _ => false)
      || timelineHasFn rest

/-- The `anyDynamic` flag after folding events is: it was set before, or
some event is a `dynamic` call. -/
theorem kfAccumulate_snd :
    ∀ (evs : List PropEvent) (pr : RuleProps) (b : Bool),
      (kfAccumulate evs (pr, b)).2 = (b || evAnyDyn evs)
  | [], pr, b => by simp [kfAccumulate, evAnyDyn]
  | e :: rest, pr, b => by
      cases e <;>
        simp [kfAccumulate, evAnyDyn, evIsDyn, kfAccumulate_snd rest,
          Bool.or_assoc]

/-- `evAnyDyn` distributes over appended event lists. -/
theorem evAnyDyn_append :
    ∀ a b : List PropEvent, evAnyDyn (a ++ b) = (evAnyDyn a || evAnyDyn b)
  | [], b => by simp [evAnyDyn]
  | e :: rest, b => by simp [evAnyDyn, evAnyDyn_append rest b, Bool.or_assoc]

/-- A time bucket's events contain a `dynamic` call exactly when the
bucket has a function value. -/
theorem evAnyDyn_parseKFProps :
    ∀ (kt : String) (ps : SEntries),
      evAnyDyn (parseKFProps kt ps) = entriesHaveFn ps
  | _, .enil => rfl
  | kt, .econs p v rest => by
      cases hv : v.isFn <;>
        simp [parseKFProps, hv, evAnyDyn, evIsDyn, entriesHaveFn,
          evAnyDyn_parseKFProps kt rest]

/-- A timeline's events contain a `dynamic` call exactly when some time
bucket has a function value. -/
theorem evAnyDyn_parseKFEntries :
    ∀ es : SEntries, evAnyDyn (parseKFEntries es) = timelineHasFn es
  | .enil => rfl
  | .econs k tp rest => by
      cases tp <;>
        simp [parseKFEntries, evAnyDyn_append, evAnyDyn_parseKFProps,
          evAnyDyn_parseKFEntries rest, timelineHasFn, evAnyDyn]

/-- The `anyDynamic` flag of `_initKeyFrames` holds exactly when some
property of some time bucket is a function. -/
theorem processKeyTimes_dynamic_iff (es : SEntries) :
    (processKeyTimes (.vObj es)).2 = timelineHasFn es := by
  simp [processKeyTimes, parseKeyFrames, kfAccumulate_snd,
    evAnyDyn_parseKFEntries]

/-- A first-compile `_initKeyFrames` with the flag raised stores the
whole processed block under the animation name, renders no static text
and creates one dynamic element. -/
theorem initKeyFrames_dynamic (name : String) (tl : SDef) (dynR : Rules)
    (env : FnEnv) (h : (processKeyTimes tl).2 = true) :
    initKeyFrames name tl true dynR env =
      .ok ⟨objSet dynR name (processKeyTimes tl).1, [], [name]⟩ := by
  rcases hpk : processKeyTimes tl with ⟨pr, ad⟩
  rw [hpk] at h
  simp at h
  subst h
  simp [initKeyFrames, hpk]

/-- A first-compile `_initKeyFrames` with the flag down leaves the
dynamic rules untouched and writes the whole rendered block as static
text (the render cannot need a reference). -/
theorem initKeyFrames_static (name : String) (tl : SDef) (dynR : Rules)
    (env : FnEnv) (h : (processKeyTimes tl).2 = false) :
    initKeyFrames name tl true dynR env =
      Except.map (fun t => KFOut.mk dynR [(name, t)] [])
        (insertRulesToSheet name (processKeyTimes tl).1 none env) := by
  rcases hpk : processKeyTimes tl with ⟨pr, ad⟩
  rw [hpk] at h
  simp at h
  subst h
  cases hins : insertRulesToSheet name pr none env <;>
    simp [initKeyFrames, hpk, hins, Except.map, ebindOk, ebindErr]

/-- A successful `_firstInitStyle` records one of the two terminal
states. -/
theorem firstInitStyle_state (baseRule : String) (d : SDef) (env : FnEnv)
    (r : FirstRes) (h : firstInitStyle baseRule d env = .ok r) :
    r.state = some "static" ∨ r.state = some "dynamic" := by
  unfold firstInitStyle at h
  cases h1 : processInitEvents env (parseStyle baseRule d) ⟨[], [], [], []⟩ with
  | error e => rw [h1] at h; simp [ebindErr] at h
  | ok acc =>
      rw [h1] at h
      simp only [ebindOk] at h
      cases h2 : renderStaticRules env acc.staticRules with
      | error e => rw [h2] at h; simp [ebindErr] at h
      | ok ws =>
          rw [h2] at h
          simp only [ebindOk, Except.ok.injEq] at h
          subst h
          cases hb : acc.dynRules.isEmpty <;> simp [hb]

/-- The property loop of part_001's renderer only appends: a prefix of
the accumulator passes through. -/
theorem multiProps_acc (ref : Option Nat) (envN : Nat → Option Nat → SDef) :
    ∀ (props : RuleProps) (a x : String),
      multiProps ref envN props (a ++ x) = a ++ multiProps ref envN props x
  | [], a, x => rfl
  | (p, v) :: rest, a, x => by
      simp only [multiProps]
      rw [show a ++ x ++ p ++ ":" ++ jsValToString (resolveValN ref envN v) ++ ";\n"
            = a ++ (x ++ p ++ ":" ++ jsValToString (resolveValN ref envN v) ++ ";\n") by
        simp [String.append_assoc]]
      exact multiProps_acc ref envN rest a _

/-- The selector loop of part_001's renderer only appends: a prefix of
the accumulator passes through. -/
theorem insertMultiLoop_acc (ref : Option Nat) (envN : Nat → Option Nat → SDef) :
    ∀ (rs : Rules) (a x : String),
      insertMultiLoop ref envN rs (a ++ x) = a ++ insertMultiLoop ref envN rs x
  | [], a, x => rfl
  | (rl, props) :: rest, a, x => by
      simp only [insertMultiLoop]
      rw [show a ++ x ++ rl ++ "\x7b\n" = a ++ (x ++ rl ++ "\x7b\n") by
            simp [String.append_assoc],
          multiProps_acc ref envN props a (x ++ rl ++ "\x7b\n"),
          String.append_assoc,
          insertMultiLoop_acc ref envN rest a _]

/-- The selector loop processes an appended rule list left to right. -/
theorem insertMultiLoop_append (ref : Option Nat) (envN : Nat → Option Nat → SDef) :
    ∀ (rs1 rs2 : Rules) (acc : String),
      insertMultiLoop ref envN (rs1 ++ rs2) acc
        = insertMultiLoop ref envN rs2 (insertMultiLoop ref envN rs1 acc)
  | [], rs2, acc => rfl
  | (rl, props) :: rest, rs2, acc => by
      simp only [List.cons_append, insertMultiLoop]
      exact insertMultiLoop_append ref envN rest rs2 _

/-- part_001's `_insertRulesToSheet` emits selectors first-seen-first:
the text of an appended rule map is the concatenation of the texts. -/
theorem insertRulesToSheetMulti_append (ref : Option Nat)
    (envN : Nat → Option Nat → SDef) (rs1 rs2 : Rules) :
    insertRulesToSheetMulti ref envN (rs1 ++ rs2)
      = insertRulesToSheetMulti ref envN rs1 ++ insertRulesToSheetMulti ref envN rs2 := by
  unfold insertRulesToSheetMulti
  rw [insertMultiLoop_append ref envN rs1 rs2 ""]
  have : insertMultiLoop ref envN rs1 ""
      = insertMultiLoop ref envN rs1 "" ++ "" := (String.append_empty _).symm
  rw [this, insertMultiLoop_acc ref envN rs2 _ "", String.append_empty]

/-- An assignment is read back. -/
theorem objGet_objSet_self {α : Type} :
    ∀ (l : List (String × α)) (k : String) (v : α),
      objGet (objSet l k v) k = some v
  | [], k, v => by simp [objSet, objGet]
  | (k2, v2) :: rest, k, v => by
      by_cases h : k2 = k
      · simp [objSet, objGet, h]
      · simp [objSet, objGet, h, objGet_objSet_self rest k v]

/-- An assignment leaves other keys unchanged. -/
theorem objGet_objSet_ne {α : Type} :
    ∀ (l : List (String × α)) (k k' : String) (v : α),
      k' ≠ k → objGet (objSet l k v) k' = objGet l k'
  | [], k, k', v, h => by
      simp [objSet, objGet, Ne.symm h]
  | (k2, v2) :: rest, k, k', v, h => by
      by_cases h2 : k2 = k
      · subst h2
        simp [objSet, objGet, Ne.symm h]
      · simp [objSet, objGet, h2, objGet_objSet_ne rest k k' v h]

/-- The keys of a JS-object association list. -/
def keysOf {α : Type} (l : List (String × α)) : List String := l.map Prod.fst

/-- A key of `objSet l k v` is a key of `l` or is `k`. -/
theorem mem_keysOf_objSet {α : Type} :
    ∀ (l : List (String × α)) (k a : String) (v : α),
      a ∈ keysOf (objSet l k v) → a ∈ keysOf l ∨ a = k
  | [], k, a, v, h => by
      simp [objSet, keysOf] at h
      exact Or.inr h
  | (k2, v2) :: rest, k, a, v, h => by
      by_cases h2 : k2 = k
      · simp only [objSet, if_pos h2, keysOf] at h
        exact Or.inl (by simpa [keysOf] using h)
      · simp only [objSet, if_neg h2, keysOf, List.map_cons, List.mem_cons] at h
        rcases h with h | h
        · exact Or.inl (by simp [keysOf, h])
        · rcases mem_keysOf_objSet rest k a v (by simpa [keysOf] using h) with hh | hh
          · exact Or.inl (by simp [keysOf]; right; simpa [keysOf] using hh)
          · exact Or.inr hh

/-- Assignment preserves key distinctness. -/
theorem nodup_keysOf_objSet {α : Type} :
    ∀ (l : List (String × α)) (k : String) (v : α),
      (keysOf l).Nodup → (keysOf (objSet l k v)).Nodup
  | [], k, v, _ => by simp [objSet, keysOf]
  | (k2, v2) :: rest, k, v, h => by
      simp only [keysOf, List.map_cons, List.nodup_cons] at h
      by_cases h2 : k2 = k
      · simpa [objSet, h2, keysOf] using h
      · simp only [objSet, if_neg h2, keysOf, List.map_cons, List.nodup_cons]
        refine ⟨fun hmem => ?_, nodup_keysOf_objSet rest k v h.2⟩
        rcases mem_keysOf_objSet rest k k2 v hmem with hh | hh
        · exact h.1 (by simpa [keysOf] using hh)
        · exact h2 hh

/-- The merging loop of `_renderDynamicStyles` keeps the merged class
lines' keys distinct. -/
theorem mergeStack_distinct (env : GetEnv) (ref : Nat) :
    ∀ (items : List DynItem) (acc : List (String × String)),
      (keysOf acc).Nodup → (keysOf (mergeStackLoop env ref items acc)).Nodup
  | [], _, h => h
  | it :: rest, acc, h => by
      unfold mergeStackLoop
      cases env it.fnId ref with
      | none => exact mergeStack_distinct env ref rest acc h
      | some v =>
          exact mergeStack_distinct env ref rest _ (nodup_keysOf_objSet acc _ _ h)

/-- The write loop does not change `_lastStyleValues` entries of class
lines it never visits. -/
theorem applyMerged_untouched :
    ∀ (merged last : List (String × String)) (cl : String),
      cl ∉ keysOf merged →
      objGet (applyMergedLoop merged last).2 cl = objGet last cl
  | [], _, _, _ => rfl
  | (c, p) :: rest, last, cl, h => by
      simp only [keysOf, List.map_cons, List.mem_cons, not_or] at h
      unfold applyMergedLoop
      by_cases hc : objGet last c = some p
      · simp only [if_pos hc]
        exact applyMerged_untouched rest last cl (by simpa [keysOf] using h.2)
      · simp only [if_neg hc]
        rw [applyMerged_untouched rest _ cl (by simpa [keysOf] using h.2)]
        exact objGet_objSet_ne last c cl p h.1

/-- After the write loop runs, `_lastStyleValues` holds exactly the
merged text of every visited class line. -/
theorem applyMerged_lookup :
    ∀ (merged last : List (String × String)),
      (keysOf merged).Nodup →
      ∀ (cl props : String), (cl, props) ∈ merged →
        objGet (applyMergedLoop merged last).2 cl = some props
  | [], _, _, _, _, hm => by simp at hm
  | (c, p) :: rest, last, hd, cl, props, hm => by
      simp only [keysOf, List.map_cons, List.nodup_cons] at hd
      rcases List.mem_cons.mp hm with he | hm2
      · obtain ⟨h1, h2⟩ := Prod.mk.injEq .. ▸ he
        subst h1; subst h2
        unfold applyMergedLoop
        by_cases hc : objGet last cl = some props
        · simp only [if_pos hc]
          rw [applyMerged_untouched rest last cl (by simpa [keysOf] using hd.1)]
          exact hc
        · simp only [if_neg hc]
          rw [applyMerged_untouched rest _ cl (by simpa [keysOf] using hd.1)]
          exact objGet_objSet_self last cl props
      · unfold applyMergedLoop
        by_cases hc : objGet last c = some p
        · simp only [if_pos hc]
          exact applyMerged_lookup rest last hd.2 cl props hm2
        · simp only [if_neg hc]
          exact applyMerged_lookup rest _ hd.2 cl props hm2

/-- When every merged class line's text equals the last written text, the
write loop performs no write and changes nothing. -/
theorem applyMerged_noop :
    ∀ (merged last : List (String × String)),
      (∀ cl props, (cl, props) ∈ merged → objGet last cl = some props) →
      applyMergedLoop merged last = ([], last)
  | [], _, _ => rfl
  | (c, p) :: rest, last, h => by
      have hc : objGet last c = some p := h c p (List.mem_cons_self _ _)
      unfold applyMergedLoop
      rw [if_pos hc]
      exact applyMerged_noop rest last
        (fun cl props hm => h cl props (List.mem_cons_of_mem _ hm))

/-- A second `_renderDynamicStyles` whose producers return the same
values writes nothing: every merged string equals the recorded last
value. -/
theorem renderDynamicStyles_second_noop (stack themes : List DynItem)
    (env : GetEnv) (ref : Nat) (last0 : List (String × String)) :
    (renderDynamicStyles stack themes env ref
      (renderDynamicStyles stack themes env ref last0).2).1 = [] := by
  unfold renderDynamicStyles
  have hd : (keysOf (mergeStackLoop env ref (stack ++ themes) [])).Nodup :=
    mergeStack_distinct env ref _ [] (by simp [keysOf])
  rw [applyMerged_noop _ _
    (fun cl props hm =>
      applyMerged_lookup (mergeStackLoop env ref (stack ++ themes) []) last0 hd
        cl props hm)]

/-! ## Claim theorems -/

/-- C1: the claim says a later `initStyle()` on a base rule whose cached
state is `STATIC_AND_DYNAMIC` re-walks the definition and stores the
refreshed dynamic RuleSet.  The code cannot: the guard of
`_laterInitStyle`, `!this._styleInitializedBefore() !== "dynamic"`,
compares a boolean with a string and is therefore true for EVERY state,
so the later compile always returns early and never touches
`this._dynamicRules` — shown here together with the non-empty dynamic
rule set the skipped dynamic-only walk would have collected for the
spec §8 scenario. -/
theorem C1_later_compile_never_runs :
    (∀ st : Option String, laterInitGuard st = true) ∧
    (∀ (st : Option String) (baseRule : String) (makeResult : SDef)
       (dynBefore : Option Rules),
      laterInitStyle st baseRule makeResult dynBefore = dynBefore) ∧
    laterInitStyle (some "dynamic") ".Widget" c9def none = none ∧
    processLaterEvents (parseStyle ".Widget" c9def) []
      = [(".Widget", [("size", SDef.vFn 0)])] := by
  refine ⟨laterInitGuard_always_true, ?_, rfl, rfl⟩
  intro st baseRule makeResult dynBefore
  simp [laterInitStyle, laterInitGuard_always_true]

/-- C2: the claim says `when("Square")` produces a reserved-prefix key and
the nested `when(":active")` entry compiles to `.Comp.Square:active`.
The walker behaves as claimed on reserved-prefix keys, but the `when`
helper of `initStyle` — `(param) => + whenKey + param` — coerces the
prefix string with a unary `+` to NaN, so it returns `"NaNSquare"`, the
walker never recognizes it, and the scenario compiles to the descendant
selector `.Comp .NaNSquare .NaN:active` instead. -/
theorem C2_when_helper_broken :
    whenHelper "Square" = "NaNSquare" ∧
    whenHelper ":active" = "NaN:active" ∧
    isWhenProp (whenHelper "Square") = false ∧
    parseStyle ".Comp" whenDefViaHelper
      = [PropEvent.eStatic ".Comp .NaNSquare .NaN:active" "color" (.vStr "red")] ∧
    parseStyle ".Comp" whenDefIntended
      = [PropEvent.eStatic ".Comp.Square:active" "color" (.vStr "red")] :=
  ⟨rfl, rfl, rfl, rfl, rfl⟩

/-- C7: the claim says a pre-suffixed time key such as `"60%"` is kept
exactly as-is.  In `parseKeyFrames`, `parseInt("60%")` is `60` (not NaN),
so the code appends another `'%'` and produces `"60%%"`; only keys with
no leading integer, such as `"from"` and `"to"`, are kept as-is (and
`"0.5"` also gets a suffix).  The `_parseKeyFrames` draft in
`src/index.mjs` rebuilds the key from the parsed integer and is the one
that leaves `"60%"` unchanged. -/
theorem C7_time_key_double_suffix :
    kfTimeKey "60" = "60%" ∧
    kfTimeKey "0" = "0%" ∧
    kfTimeKey "from" = "from" ∧
    kfTimeKey "to" = "to" ∧
    kfTimeKey "60%" = "60%%" ∧
    kfTimeKey "0.5" = "0.5%" ∧
    idxFrameTime "60%" = "60%" ∧
    idxFrameTime "from" = "from" ∧
    parseKeyFrames (.vObj (.econs "60%"
        (.vObj (.econs "opacity" (.vStr "1") .enil)) .enil))
      = [PropEvent.eStatic "60%%" "opacity" (.vStr "1")] :=
  ⟨rfl, rfl, rfl, rfl, rfl, rfl, rfl, rfl, rfl⟩

/-- C8: the property-name conversion replaces each ASCII uppercase letter
with `-` plus its lowercase form and changes no other characters
(`toCSSProp` equals the spec-worded per-character map on every string);
`backgroundColor` maps to `background-color` and `color` is unchanged;
`parser._on` applies the conversion for the `static` and `dynamic`
conditions but passes keyframes animation names through untouched; and
property names inside keyframe time buckets are converted while the time
key itself is not. -/
theorem C8_camel_to_dash :
    (∀ name : String, toCSSProp name = dashCaseSpec name) ∧
    toCSSProp "backgroundColor" = "background-color" ∧
    toCSSProp "color" = "color" ∧
    (∀ p : String, onPropName "keyframes" p = p) ∧
    (∀ p : String, onPropName "static" p = toCSSProp p) ∧
    (∀ p : String, onPropName "dynamic" p = toCSSProp p) ∧
    parseKeyFrames (.vObj (.econs "from"
        (.vObj (.econs "opacityLevel" (.vNum 1) .enil)) .enil))
      = [PropEvent.eStatic "from" "opacity-level" (.vNum 1)] ∧
    parseCSSPropName "backgroundColor" = "background-color" ∧
    parseCSSPropName "color" = "color" := by
  refine ⟨toCSSProp_eq_dashCaseSpec, rfl, rfl, fun p => rfl, fun p => rfl,
    fun p => rfl, rfl, rfl, rfl⟩

/-- C3: for every base rule and definition, a first `initStyle()` on an
uncompiled registry moves the per-rule state to a terminal one
(`"static"` = STATIC_ONLY or `"dynamic"` = STATIC_AND_DYNAMIC), and a
second manager's `initStyle()` with the identical definition takes the
later path: it creates no style elements, renders no static text, and
leaves the registry state unchanged — so exactly one static compile and
static-output write happen, on the first call. -/
theorem C3_first_compile_once :
    ∀ (baseRule : String) (d : SDef) (env : FnEnv) (r1 : StepRes),
      initStyleStep none none baseRule d env = .ok r1 →
      (r1.state = some "static" ∨ r1.state = some "dynamic") ∧
      initStyleStep r1.state none baseRule d env =
        .ok { state := r1.state, dynRules := none,
              staticWrites := [], dynSheets := [] } := by
  intro b d env r1 h
  unfold initStyleStep at h
  simp only [jsTruthyStr, if_false, Bool.false_eq_true] at h
  cases hf : firstInitStyle b d env with
  | error e => rw [hf] at h; simp [ebindErr] at h
  | ok r =>
      rw [hf] at h
      simp only [ebindOk, Except.ok.injEq] at h
      subst h
      have hst := firstInitStyle_state b d env r hf
      refine ⟨hst, ?_⟩
      rcases hst with h1 | h1 <;>
        simp [initStyleStep, h1, jsTruthyStr, laterInitStyle,
          laterInitGuard_always_true]

/-- The observable outcome of the first `initStyle()` call of the spec §8
scenario, used to witness C3 at a concrete input. -/
def c3res : StepRes :=
  { state := some "dynamic",
    dynRules := some [(".Widget", [("size", SDef.vFn 0)])],
    staticWrites :=
      [(".Widget", ".Widget\x7b\ncolor:white;\nbackground-color:red;\n\x7d\n")],
    dynSheets := [".Widget"] }

/-- C3 witness: the scenario definition on base `.Widget` compiles once
to the `"dynamic"` terminal state, and the second manager's call is a
no-op. -/
theorem C3_witness :
    (c3res.state = some "static" ∨ c3res.state = some "dynamic") ∧
    initStyleStep c3res.state none ".Widget" c9def c9env =
      .ok { state := c3res.state, dynRules := none,
            staticWrites := [], dynSheets := [] } :=
  C3_first_compile_once ".Widget" c9def c9env c3res rfl

/-- The dynamic rule set of the §8 scenario, the memorized sheets, and a
producer returning the same value on every call, for exercising
`updateDynamicStyles` twice. -/
def c4dyn : Rules := [(".Widget", [("size", SDef.vFn 0)])]

/-- Memory holding a dynamic sheet for every rule line. -/
def c4mem : String → Option MemEntry := fun _ => some ⟨none, some 7⟩

/-- The text `updateDynamicStyles` writes for `c4dyn` with a producer
returning `0`. -/
def c4text : String := ".Widget\x7b\nsize:0;\n\x7d\n"

/-- C4 counterexample: the manager's `updateDynamicStyles` keeps no
last-written text and compares nothing — called twice with the producer
returning `0` both times it performs the same non-empty write both
times, so the claim's "exactly one write, the redundant second write is
skipped" is false for this concrete manager state. -/
theorem C4_counterexample :
    (updateDynamicStyles (some c4dyn) c4mem (some 1) c9env,
     updateDynamicStyles (some c4dyn) c4mem (some 1) c9env) =
      (.ok [(".Widget", c4text)], .ok [(".Widget", c4text)]) ∧
    c4text ≠ "" :=
  ⟨rfl, by decide⟩

/-- C4 amended: the manager's `updateDynamicStyles` /
`_insertRulesToSheet` path writes unconditionally on every call (two
calls with equal producer values perform two equal writes); the
string-equality short-circuit lives in the `_renderDynamicStyles` path of
`src/index.mjs`: there a second call whose producers return the same
values performs no write at all — for any style stack, producers and
prior state — while producers returning different values yield two
writes with two different texts. -/
theorem C4_write_skip_in_renderDynamicStyles :
    updateDynamicStyles (some c4dyn) c4mem (some 1) c9env
      = .ok [(".Widget", c4text)] ∧
    (∀ (stack themes : List DynItem) (env : GetEnv) (ref : Nat)
       (last0 : List (String × String)),
      (renderDynamicStyles stack themes env ref
        (renderDynamicStyles stack themes env ref last0).2).1 = []) ∧
    (renderDynamicStyles [⟨".W", "size", 0⟩] [] (fun _ _ => some "0") 0 []).1
      = [(".W", ".W \x7bsize: 0;\n\x7d")] ∧
    (renderDynamicStyles [⟨".W", "size", 0⟩] [] (fun _ _ => some "1") 0
        (renderDynamicStyles [⟨".W", "size", 0⟩] [] (fun _ _ => some "0") 0 []).2).1
      = [(".W", ".W \x7bsize: 1;\n\x7d")] ∧
    (".W \x7bsize: 0;\n\x7d" : String) ≠ ".W \x7bsize: 1;\n\x7d" :=
  ⟨rfl, renderDynamicStyles_second_noop, rfl, rfl, by decide⟩

/-- C9 counterexample: compiling the §8 scenario on base `.Widget`
renders the static text WITHOUT the spaces the claim's exact string
carries — `_insertRulesToSheet` writes `ruleLine + '{\n'` and
`prop + ':' + value + ';\n'`. -/
theorem C9_counterexample :
    firstInitStyle ".Widget" c9def c9env =
      .ok ⟨some "dynamic", [(".Widget", [("size", SDef.vFn 0)])],
           [(".Widget", ".Widget\x7b\ncolor:white;\nbackground-color:red;\n\x7d\n")],
           [".Widget"]⟩ ∧
    (".Widget\x7b\ncolor:white;\nbackground-color:red;\n\x7d\n" : String) ≠
      ".Widget \x7b\ncolor: white;\nbackground-color: red;\n\x7d\n" :=
  ⟨rfl, by decide⟩

/-- C9 amended: the scenario's static output is exactly
`.Widget{\ncolor:white;\nbackground-color:red;\n}\n` — properties in
insertion order, dash-cased, the dynamic `size` excluded — and selectors
are concatenated first-seen-first-emitted (part_001's multi-selector
renderer is additive over the rule map, shown concretely for two
selectors). -/
theorem C9_static_output_exact :
    firstInitStyle ".Widget" c9def c9env =
      .ok ⟨some "dynamic", [(".Widget", [("size", SDef.vFn 0)])],
           [(".Widget", ".Widget\x7b\ncolor:white;\nbackground-color:red;\n\x7d\n")],
           [".Widget"]⟩ ∧
    (∀ (ref : Option Nat) (envN : Nat → Option Nat → SDef) (rs1 rs2 : Rules),
      insertRulesToSheetMulti ref envN (rs1 ++ rs2)
        = insertRulesToSheetMulti ref envN rs1 ++ insertRulesToSheetMulti ref envN rs2) ∧
    insertRulesToSheetMulti none (fun _ _ => SDef.vNum 0)
        [(".A", [("x", SDef.vStr "1")]), (".B", [("y", SDef.vStr "2")])]
      = ".A\x7b\nx:1;\n\x7d\n.B\x7b\ny:2;\n\x7d\n" :=
  ⟨rfl, insertRulesToSheetMulti_append, rfl⟩

/-- C5: keyframe compilation is all-or-nothing per animation name: the
`anyDynamic` flag holds exactly when some property of some time bucket is
a function; when it holds, first compile stores the ENTIRE processed
block (literal values included) as the single dynamic entry for the
animation name and renders no static text for it; when it does not, the
whole block is rendered once as static text.  Concretely, for
`@keyframes X { from: { opacity: 0 }, to: { opacity: fn } }` the first
compile stores both buckets (including the literal `0`) under one
dynamic entry with no static write, and an update renders the one text
with both time buckets evaluated together; a fully static block is
written once at first compile. -/
theorem C5_keyframes_all_or_nothing :
    (∀ es : SEntries, (processKeyTimes (.vObj es)).2 = timelineHasFn es) ∧
    (∀ (name : String) (tl : SDef) (dynR : Rules) (env : FnEnv),
      ((processKeyTimes tl).2 = true →
        initKeyFrames name tl true dynR env =
          .ok ⟨objSet dynR name (processKeyTimes tl).1, [], [name]⟩) ∧
      ((processKeyTimes tl).2 = false →
        initKeyFrames name tl true dynR env =
          Except.map (fun t => KFOut.mk dynR [(name, t)] [])
            (insertRulesToSheet name (processKeyTimes tl).1 none env))) ∧
    processKeyTimes kfTimeline = (kfProcessed, true) ∧
    firstInitStyle ".Anim" kfDef c9env =
      .ok ⟨some "dynamic", [("@keyframes X", kfProcessed)], [],
           ["@keyframes X", "@keyframes X"]⟩ ∧
    updateDynamicStyles (some [("@keyframes X", kfProcessed)])
        (fun _ => some ⟨none, some 1⟩) (some 3) (fun _ _ => .vNum 7) =
      .ok [("@keyframes X",
        "@keyframes X\x7b\nfrom\x7b\nopacity:0;\n\x7d\nto\x7b\nopacity:7;\n\x7d\n\x7d\n")] ∧
    initKeyFrames "@keyframes Y" kfTimelineStatic true [] c9env =
      .ok ⟨[], [("@keyframes Y",
        "@keyframes Y\x7b\nfrom\x7b\nopacity:0;\n\x7d\nto\x7b\nopacity:1;\n\x7d\n\x7d\n")], []⟩ :=
  ⟨processKeyTimes_dynamic_iff,
   fun name tl dynR env =>
     ⟨initKeyFrames_dynamic name tl dynR env, initKeyFrames_static name tl dynR env⟩,
   rfl, rfl, rfl, rfl⟩

/-- C6: rendering a rule set that holds at least one function-valued
entry (top level or inside a keyframes time bucket) with a `null`/absent
component reference fails immediately with the internal error — it is
never ignored and no `undefined` is interpolated into the output text —
while a `null` reference is accepted (the render returns text) whenever
the rule set holds no function values. -/
theorem C6_null_ref_with_dynamic_errors :
    ∀ (ruleLine : String) (ruleSet : RuleProps) (env : FnEnv),
      (rulePropsHaveFn ruleSet = true →
        insertRulesToSheet ruleLine ruleSet none env = .error dynErrMsg) ∧
      (rulePropsHaveFn ruleSet = false →
        ∃ text, insertRulesToSheet ruleLine ruleSet none env = .ok text) := by
  intro rl rs env
  constructor
  · intro h
    simp [insertRulesToSheet, renderRuleProps_err env rs h, ebindErr]
  · intro h
    obtain ⟨t, ht⟩ := renderRuleProps_ok env rs h (rl ++ "\x7b\n")
    exact ⟨t ++ "\x7d\n", by simp [insertRulesToSheet, ht, ebindOk]⟩

/-- C6 witness: the rule set `{ size: fn }` with no reference throws the
internal error; the rule set `{ color: "white" }` with no reference
renders. -/
theorem C6_witness :
    insertRulesToSheet ".Widget" [("size", SDef.vFn 0)] none c9env
      = .error dynErrMsg ∧
    (∃ text, insertRulesToSheet ".Widget" [("color", SDef.vStr "white")] none c9env
      = .ok text) :=
  ⟨(C6_null_ref_with_dynamic_errors ".Widget" [("size", SDef.vFn 0)] c9env).1 rfl,
   (C6_null_ref_with_dynamic_errors ".Widget" [("color", SDef.vStr "white")] c9env).2 rfl⟩

/-- C10: `updateDynamicStyles()` on a manager whose `_dynamicRules` is
still `null` (constructed, `initStyle()` not yet run) or compiled to an
empty map iterates nothing, performs no write and raises no error,
whatever the memorized sheets, reference and producers are. -/
theorem C10_update_without_dynamic_rules :
    ∀ (mem : String → Option MemEntry) (ref : Option Nat) (env : FnEnv),
      updateDynamicStyles none mem ref env = .ok [] ∧
      updateDynamicStyles (some []) mem ref env = .ok [] :=
  fun _ _ _ => ⟨rfl, rfl⟩

end RS
